import Mathlib

/-!
Shallow embedding of the padel-booker core (booker.py, utils.py, api.py,
navigation_strategy.py) and proofs of the specification claims.

Times of day are modelled as minutes since midnight (parsing of "HH:MM"
display text by `datetime.strptime`); durations requested in hours are
modelled as rationals (`duration_hours` is a Python float, and every value
the spec exercises is exactly representable).
-/

namespace PadelBooker

/-- One free slot cell of the matrix page: the court it belongs to (the
cell's `title` attribute), its parsed start and end times in minutes since
midnight, and a page-order index standing for the DOM element identity. -/
structure Cell where
  court : String
  start : Nat
  endT : Nat
  idx : Nat
  deriving DecidableEq, Repr

/-- `(end_dt - start_dt).seconds // 60` for two `%H:%M` times on the same
reference date: the timedelta is normalised, so a negative difference wraps
modulo 24 hours. -/
def durMin (s e : Nat) : Nat :=
  (1440 + e % 1440 - s % 1440) % 1440

/-- `(end_dt - start_dt).total_seconds() / 3600` for two `%H:%M` times on
the same reference date: a signed duration in hours (no wrap-around). -/
def durHoursSigned (c : Cell) : ℚ :=
  ((c.endT : ℚ) - (c.start : ℚ)) / 60

/-- Python `int(x)` truncates toward zero. -/
def intTrunc (q : ℚ) : ℤ :=
  if 0 ≤ q then ⌊q⌋ else ⌈q⌉

/-- The inline condition of `check_availability`'s scan: the cell's start
equals the requested start and the computed duration differs from
`duration_hours` by less than 0.01 hours. -/
def availMatches (start_time : Nat) (duration_hours : ℚ) (c : Cell) : Prop :=
  c.start = start_time ∧ |durHoursSigned c - duration_hours| < 1/100

instance (start_time : Nat) (duration_hours : ℚ) (c : Cell) :
    Decidable (availMatches start_time duration_hours c) := by
  unfold availMatches; infer_instance

/-- `check_availability` (booker.py): scan the free cells in page order and
return the first whose start equals the requested start and whose duration
differs from `duration_hours` by less than 0.01 hours. -/
def check_availability (cells : List Cell) (start_time : Nat)
    (duration_hours : ℚ) : Option Cell :=
  match cells with
  | [] => none
  | c :: cs =>
    if availMatches start_time duration_hours c then
      some c
    else
      check_availability cs start_time duration_hours

/-- Append a cell into the per-court grouping, preserving dict insertion
order of courts and page order of cells within a court. -/
def addToCourt (acc : List (String × List Cell)) (c : Cell) :
    List (String × List Cell) :=
  match acc with
  | [] => [(c.court, [c])]
  | (k, v) :: rest =>
    if k = c.court then (k, v ++ [c]) :: rest else (k, v) :: addToCourt rest c

/-- Group the free cells by their court title (`slots_by_court`). -/
def groupByCourt (cells : List Cell) : List (String × List Cell) :=
  cells.foldl addToCourt []

/-- Stable insertion used to model Python's stable `list.sort` keyed on the
parsed start time: a new element goes after all existing elements with a
key less than or equal to its own. -/
def insertByStart (c : Cell) : List Cell → List Cell
  | [] => [c]
  | d :: ds => if d.start ≤ c.start then d :: insertByStart c ds else c :: d :: ds

/-- `slots.sort(key=start)` — stable ascending sort by start time. -/
def sortByStart (l : List Cell) : List Cell :=
  l.foldl (fun acc c => insertByStart c acc) []

/-- The inner `while` loop of `find_consecutive_slots`: starting after the
anchor cell with accumulated minutes `total` and running end `last_end`,
absorb the next sorted cell while the total is still short of
`needed_minutes` and the next cell's start equals the running end. -/
def chainSlots (needed : ℤ) : List Cell → Nat → Nat → Nat × Nat
  | [], total, last_end => (total, last_end)
  | c :: cs, total, last_end =>
    if (total : ℤ) < needed then
      if c.start = last_end then
        chainSlots needed cs (total + durMin c.start c.endT) c.endT
      else
        (total, last_end)
    else
      (total, last_end)

/-- The per-court `for i, (start, end, slot)` loop: try each cell whose
start equals the requested start, chain forward, and return the anchor cell
and final end once the accumulated minutes reach the requirement. -/
def searchCourt (start_time : Nat) (needed : ℤ) : List Cell → Option (Cell × Nat)
  | [] => none
  | c :: cs =>
    if c.start = start_time then
      let r := chainSlots needed cs (durMin c.start c.endT) c.endT
      if needed ≤ (r.1 : ℤ) then some (c, r.2)
      else searchCourt start_time needed cs
    else
      searchCourt start_time needed cs

/-- The outer `for court, slots in slots_by_court.items()` loop: first
satisfying court in iteration order wins. -/
def searchCourts (start_time : Nat) (needed : ℤ) :
    List (String × List Cell) → Option (Cell × Nat)
  | [] => none
  | (_, slots) :: rest =>
    match searchCourt start_time needed (sortByStart slots) with
    | some r => some r
    | none => searchCourts start_time needed rest

/-- `find_consecutive_slots` (booker.py): group free cells by court, sort
each court by start time, and greedily stitch contiguous cells starting at
`start_time` until `int(duration_hours * 60)` minutes are covered; returns
the anchor cell and the final end time, or `none` (Python `(None, None)`). -/
def find_consecutive_slots (cells : List Cell) (start_time : Nat)
    (duration_hours : ℚ) : Option (Cell × Nat) :=
  searchCourts start_time (intTrunc (duration_hours * 60)) (groupByCourt cells)

/-! Spec-side rendering of the stitching algorithm, written from the words
of the spec (group by court, sort ascending, locate a cell starting at the
requested start, greedily absorb while the next sorted cell's start equals
the running end, stop on first gap or once accumulated minutes meet the
requirement, first satisfying court wins). It computes the absorbed run as
a list and measures it, rather than threading an accumulator pair. -/

/-- Spec reading: the cells absorbed after the anchor, extending while the
accumulated minutes are still short and the next cell is contiguous. -/
def extendRun (needed : ℤ) (last_end : Nat) (acc : Nat) : List Cell → List Cell
  | [] => []
  | c :: cs =>
    if (acc : ℤ) < needed ∧ c.start = last_end then
      c :: extendRun needed c.endT (acc + durMin c.start c.endT) cs
    else
      []

/-- Total minutes covered by a run of cells. -/
def runMinutes (run : List Cell) : Nat :=
  (run.map fun c => durMin c.start c.endT).sum

/-- End time of the last cell of a run, or a default for the empty run. -/
def lastEndOf (dflt : Nat) : List Cell → Nat
  | [] => dflt
  | c :: cs => lastEndOf c.endT cs

/-- Spec reading of the per-court search. -/
def specSearchCourt (start_time : Nat) (needed : ℤ) : List Cell → Option (Cell × Nat)
  | [] => none
  | c :: cs =>
    if c.start = start_time then
      let run := c :: extendRun needed c.endT (durMin c.start c.endT) cs
      if needed ≤ (runMinutes run : ℤ) then
        some (c, lastEndOf c.endT (extendRun needed c.endT (durMin c.start c.endT) cs))
      else specSearchCourt start_time needed cs
    else
      specSearchCourt start_time needed cs

/-- Spec reading of the court iteration. -/
def specSearchCourts (start_time : Nat) (needed : ℤ) :
    List (String × List Cell) → Option (Cell × Nat)
  | [] => none
  | (_, slots) :: rest =>
    match specSearchCourt start_time needed (sortByStart slots) with
    | some r => some r
    | none => specSearchCourts start_time needed rest

/-- `findConsecutiveSlots` as the spec describes it. -/
def findConsecutiveSlotsSpec (cells : List Cell) (start_time : Nat)
    (duration_hours : ℚ) : Option (Cell × Nat) :=
  specSearchCourts start_time (intTrunc (duration_hours * 60)) (groupByCourt cells)

/-! ### `select_players` (booker.py) -/

/-- One seat of the `for idx in range(2, 5)` loop: the first candidate, in
preference order, that is not already used and whose name appears among the
seat's dropdown options (option text compared after stripping). -/
def pickSeat (opts : List String) (used : List String)
    (player_candidates : List String) : Option String :=
  player_candidates.find? fun c => !(used.contains c) && opts.contains c

/-- `select_players` (booker.py): fill seats 2, 3, 4 from the candidate
list in preference order, never reusing a name; on the first seat that
cannot be filled, return the partial selection. Each seat's dropdown
options are supplied by the page. -/
def select_players (opts2 opts3 opts4 : List String)
    (player_candidates : List String) : List String :=
  match pickSeat opts2 [] player_candidates with
  | none => []
  | some p2 =>
    match pickSeat opts3 [p2] player_candidates with
    | none => [p2]
    | some p3 =>
      match pickSeat opts4 [p2, p3] player_candidates with
      | none => [p2, p3]
      | some p4 => [p2, p3, p4]

/-! ### `try_booking_with_player_rotation` (booker.py)

The browser environment of one attempt: the dropdown options of the three
seats, what popup (if any) appears after clicking `Verder`, and whether the
final confirmation button can be found. `popup = none` means no alert and
no modal; `popup = some none` means an error text that does not match the
`mag niet meer spelen` pattern; `popup = some (some b)` means the pattern
matched with first name `b`. -/

structure RotEnv where
  opts2 : List String
  opts3 : List String
  opts4 : List String
  popup : Option (Option String)
  confirmOk : Bool

/-- Why the loop raised `PlayerSelectionExhaustedError`. -/
inductive ExhaustReason where
  | notEnoughAfterBlocked
  | couldNotSelect
  | maxAttemptsReached
  | ranOutOfCandidates
  deriving DecidableEq, Repr

/-- The value produced by `try_booking_with_player_rotation`: the selected
players on success, Python `None` on an abort (organizer blocked,
unparseable error, or missing confirmation button), or the raised
`PlayerSelectionExhaustedError`. -/
inductive RotResult where
  | success (sel : List String)
  | noneResult
  | exhausted (r : ExhaustReason)
  deriving DecidableEq, Repr

/-- Observable outcome of a rotation run: the result, the final blocked
set, the number of attempts made, whether the confirmation button was
clicked, and the trace of `(candidates handed to selection, blocked set)`
pairs, one per attempt. -/
structure RotOut where
  result : RotResult
  blockedFinal : List String
  attempts : Nat
  confirmClicked : Bool
  trace : List (List String × List String)
  deriving DecidableEq, Repr

/-- `blocked_players.add(b)` on the set modelled as a duplicate-free list. -/
def insertBlocked (b : String) (blocked : List String) : List String :=
  if b ∈ blocked then blocked else blocked ++ [b]

/-- The `while len(candidates) >= 3 and attempt_count < max_attempts` loop
of `try_booking_with_player_rotation`. `fuel` is `max_attempts -
attempt_count`, so `fuel = 0` exactly when the attempt bound is reached;
`env` gives the page state at each attempt index. -/
def rotGo (env : Nat → RotEnv) (pool : List String) (booker_first_name : String)
    (booking_enabled : Bool) :
    List String → List String → Nat → Nat → RotOut
  | _, blocked, attempts, 0 =>
    ⟨.exhausted .maxAttemptsReached, blocked, attempts, false, []⟩
  | candidates, blocked, attempts, fuel + 1 =>
    if candidates.length < 3 then
      ⟨.exhausted .ranOutOfCandidates, blocked, attempts, false, []⟩
    else
      -- remove already-identified blocked players, then re-check the pool
      let cands1 := candidates.filter fun p => !(blocked.contains p)
      let entry := (cands1, blocked)
      if cands1.length < 3 then
        ⟨.exhausted .notEnoughAfterBlocked, blocked, attempts + 1, false, [entry]⟩
      else
        let e := env attempts
        let sel := select_players e.opts2 e.opts3 e.opts4 cands1
        if sel.length < 3 then
          ⟨.exhausted .couldNotSelect, blocked, attempts + 1, false, [entry]⟩
        else
          match e.popup with
          | some (some b) =>
            if b = booker_first_name then
              -- the organizer is blocked: cancel the whole attempt
              ⟨.noneResult, blocked, attempts + 1, false, [entry]⟩
            else
              let blocked1 := insertBlocked b blocked
              let cands2 := pool.filter fun p => !(blocked1.contains p)
              if cands2.length < 3 then
                ⟨.exhausted .notEnoughAfterBlocked, blocked1, attempts + 1, false, [entry]⟩
              else
                let rest := rotGo env pool booker_first_name booking_enabled
                  cands2 blocked1 (attempts + 1) fuel
                { rest with trace := entry :: rest.trace }
          | some none =>
            -- unknown booking error: abort
            ⟨.noneResult, blocked, attempts + 1, false, [entry]⟩
          | none =>
            -- no error popup: proceed with final confirmation
            if booking_enabled then
              if e.confirmOk then ⟨.success sel, blocked, attempts + 1, true, [entry]⟩
              else ⟨.noneResult, blocked, attempts + 1, false, [entry]⟩
            else ⟨.success sel, blocked, attempts + 1, false, [entry]⟩

/-- `try_booking_with_player_rotation` (booker.py): start from a copy of
the candidate pool, an empty blocked set and zero attempts, bounded by
`max_attempts`. -/
def try_booking_with_player_rotation (env : Nat → RotEnv)
    (player_candidates : List String) (booker_first_name : String)
    (booking_enabled : Bool) (max_attempts : Nat) : RotOut :=
  rotGo env player_candidates booker_first_name booking_enabled
    player_candidates [] 0 max_attempts

/-- `int(os.getenv("MAX_BOOKING_ATTEMPTS", "2"))` when the environment
variable is unset. -/
def defaultMaxBookingAttempts : Nat := 2

/-! ### Fallback date search (C3)

`find_consecutive_slots_with_fallback` is invoked by the repository's
integration tests but its definition is not part of the sources. -/

/-- Modelled from the spec: the previous-business-day computation of
`find_consecutive_slots_with_fallback` (the method is called on
`PadelBooker` by `test_integration_booking_flow.py` but is missing from
`booker.py`). Days are integers with day `0` a Monday, so `d % 7` is the
weekday (`5` Saturday, `6` Sunday); Saturday and Sunday are skipped in a
single arithmetic step rather than as individually visited days. -/
def prevBusinessDay (d : ℤ) : ℤ :=
  if (d - 1) % 7 = 6 then d - 3
  else if (d - 1) % 7 = 5 then d - 2
  else d - 1

/-- Modelled from the spec: `find_consecutive_slots_with_fallback(date,
start, duration_hours, max_days_back)` (missing from `booker.py`; only its
test callers exist). `avail d` abstracts navigating to day `d` and running
`find_consecutive_slots` there. Visits up to `max_days_back` candidate
business days, one navigation each, and returns the found slot with its
day together with the navigation count, or `none` after the bound is
consumed. -/
def find_consecutive_slots_with_fallback (avail : ℤ → Option (Cell × Nat)) :
    ℤ → Nat → Nat → Option (Cell × Nat × ℤ) × Nat
  | _, 0, navs => (none, navs)
  | d, fuel + 1, navs =>
    match avail d with
    | some (c, e) => (some (c, e, d), navs + 1)
    | none => find_consecutive_slots_with_fallback avail (prevBusinessDay d) fuel (navs + 1)

/-! ### Booking job and status tracker (utils.py `run_booking_background`,
api.py `book_court`) -/

/-- A booking result dict: `{"status": "success", ...}` with the selected
players, or `{"status": "error", "message": ...}`. -/
inductive BRes where
  | success (players : List String)
  | error (message : String)
  deriving DecidableEq, Repr

/-- The process-wide `booking_status` dict. -/
structure BookingStatus where
  running : Bool
  result : Option BRes
  startedAt : Option Nat
  deriving DecidableEq, Repr

/-- The slice of `config.json` that `run_booking_background` reads. -/
structure JobCfg where
  login_url : String
  booking_date : String
  start_time : String
  deriving DecidableEq, Repr

/-- What the browser session does during one background job, step by step:
whether `PadelBooker()` construction raises (with the exception text),
whether login succeeds, whether navigation raises, whether
`find_consecutive_slots` finds a slot, and what `book_slot` returns. -/
structure JobEnv where
  constructRaise : Option String
  loginOk : Bool
  navRaise : Option String
  slotFound : Bool
  bookResult : Option (List String)
  deriving DecidableEq, Repr

/-- Observable effect of one `run_booking_background` call: the status
right after the initial transition, the status when the function returns,
and whether a browser session (`PadelBooker()`) was constructed. -/
structure JobRun where
  afterStart : BookingStatus
  final : BookingStatus
  sessionOpened : Bool
  deriving DecidableEq, Repr

/-- The body of the `with PadelBooker() as booker` block: the result it
stores, given the session environment. -/
def jobBody (cfg : JobCfg) (env : JobEnv) : BRes :=
  if !env.loginOk then .error "Login failed"
  else
    match env.navRaise with
    | some m => .error ("Error: " ++ m)
    | none =>
      if !env.slotFound then
        .error ("No available slots found for " ++ cfg.start_time ++ " on "
          ++ cfg.booking_date)
      else
        match env.bookResult with
        | some (p :: ps) => .success (p :: ps)
        | _ => .error "Booking failed"

/-- `run_booking_background` (utils.py): set `running=true`, clear the
result, stamp `started_at`; reject empty organizer name or empty candidate
list before constructing `PadelBooker`; otherwise run the session body,
converting any exception into an error result; the `finally` block always
sets `running=false`. -/
def run_booking_background (cfg : JobCfg) (booker_first_name : String)
    (player_candidates : List String) (env : JobEnv)
    (now : Nat) : JobRun :=
  let st1 : BookingStatus := { running := true, result := none, startedAt := some now }
  if booker_first_name = "" ∨ player_candidates = [] then
    { afterStart := st1
      final := { st1 with
        running := false
        result := some (.error "booker_first_name and player_candidates must be provided") }
      sessionOpened := false }
  else
    match env.constructRaise with
    | some m =>
      { afterStart := st1
        final := { st1 with running := false, result := some (.error ("Error: " ++ m)) }
        sessionOpened := false }
    | none =>
      { afterStart := st1
        final := { st1 with
          running := false
          result := some (jobBody cfg env) }
        sessionOpened := true }

/-- Response of the `/api/book` endpoint. -/
inductive ApiResp where
  | httpError (code : Nat)
  | started (startedAt : Option Nat)
  deriving DecidableEq, Repr

/-- `book_court` (api.py): reject with HTTP 400 while a booking is already
running, then check configuration (400) and credentials (500), and only
then spawn the background job thread. The boolean records whether the
thread — and hence any browser session — was started. -/
def book_court (st : BookingStatus) (configOk : Bool) (credsOk : Bool) :
    ApiResp × Bool :=
  if st.running then (.httpError 400, false)
  else if !configOk then (.httpError 400, false)
  else if !credsOk then (.httpError 500, false)
  else (.started st.startedAt, true)

/-! ### Desktop month-stepping navigation (navigation_strategy.py) -/

/-- How the month loop of `DesktopNavigationStrategy.navigate_to_date`
ended: target month reached, calendar title unparseable (loop `break`s),
or the step bound exhausted (logged as an error and surfaced by returning,
not by raising). -/
inductive NavEnd where
  | reached
  | parseFail
  | timeout
  deriving DecidableEq, Repr

/-- The `while navigation_count < max_month_navigation` loop: at each
iteration read and parse the calendar header (`headers n` after `n`
clicks; `none` models an unparseable title), stop when it shows the target
year/month, otherwise click next or previous and count the step. `fuel`
is `max_month_navigation - navigation_count`. -/
def navMonthGo (headers : Nat → Option (Int × Nat)) (year : Int) (month : Nat) :
    Nat → Nat → Nat × NavEnd
  | count, 0 => (count, .timeout)
  | count, fuel + 1 =>
    match headers count with
    | none => (count, .parseFail)
    | some (cy, cm) =>
      if cy = year ∧ cm = month then (count, .reached)
      else navMonthGo headers year month (count + 1) fuel

/-- `max_month_navigation = 24` in `navigate_to_date`. -/
def maxMonthNavigation : Nat := 24

/-- The month-navigation phase of
`DesktopNavigationStrategy.navigate_to_date`: returns the number of
next/previous clicks performed and how the loop ended. -/
def navigate_to_date_months (headers : Nat → Option (Int × Nat))
    (year : Int) (month : Nat) : Nat × NavEnd :=
  navMonthGo headers year month 0 maxMonthNavigation

/-! ## Theorems -/

theorem runMinutes_nil : runMinutes [] = 0 := rfl

theorem runMinutes_cons (c : Cell) (l : List Cell) :
    runMinutes (c :: l) = durMin c.start c.endT + runMinutes l := by
  simp [runMinutes]

/-- The accumulator-threading inner `while` loop computes exactly the total
minutes and final end of the spec's absorbed run. -/
theorem chainSlots_eq_extendRun (needed : ℤ) :
    ∀ (cs : List Cell) (total last_end : Nat),
      chainSlots needed cs total last_end =
        (total + runMinutes (extendRun needed last_end total cs),
         lastEndOf last_end (extendRun needed last_end total cs))
  | [], total, last_end => by
    simp [chainSlots, extendRun, runMinutes, lastEndOf]
  | c :: cs, total, last_end => by
    by_cases h1 : (total : ℤ) < needed
    · by_cases h2 : c.start = last_end
      · rw [chainSlots, if_pos h1, if_pos h2,
          chainSlots_eq_extendRun needed cs (total + durMin c.start c.endT) c.endT]
        rw [extendRun, if_pos ⟨h1, h2⟩, runMinutes_cons, lastEndOf]
        rw [Nat.add_assoc]
      · rw [chainSlots, if_pos h1, if_neg h2, extendRun,
          if_neg (by exact fun h => h2 h.2)]
        simp [runMinutes, lastEndOf]
    · rw [chainSlots, if_neg h1, extendRun, if_neg (by exact fun h => h1 h.1)]
      simp [runMinutes, lastEndOf]

theorem searchCourt_eq_spec (start_time : Nat) (needed : ℤ) :
    ∀ l : List Cell,
      searchCourt start_time needed l = specSearchCourt start_time needed l
  | [] => rfl
  | c :: cs => by
    rw [searchCourt, specSearchCourt]
    by_cases h : c.start = start_time
    · rw [if_pos h, if_pos h]
      simp only [chainSlots_eq_extendRun, runMinutes_cons]
      split
      · rfl
      · exact searchCourt_eq_spec start_time needed cs
    · rw [if_neg h, if_neg h]
      exact searchCourt_eq_spec start_time needed cs

theorem searchCourts_eq_spec (start_time : Nat) (needed : ℤ) :
    ∀ l : List (String × List Cell),
      searchCourts start_time needed l = specSearchCourts start_time needed l
  | [] => rfl
  | (k, slots) :: rest => by
    rw [searchCourts, specSearchCourts, searchCourt_eq_spec]
    cases specSearchCourt start_time needed (sortByStart slots) with
    | none => exact searchCourts_eq_spec start_time needed rest
    | some r => rfl

/-- C1: `find_consecutive_slots` groups free cells by court, sorts each
court's cells by start ascending, and returns, from the first court in
iteration order containing a greedy run anchored at a cell starting at
`start` and extended while each next sorted cell's start equals the
running end (stopping at the first gap or once the accumulated minutes
reach `duration_hours * 60`), the run's first slot and final end time; in
particular contiguous slots 21:00-22:00 and 22:00-23:00 with request
("21:00", 2.0) yield the first slot and end 23:00, while the gapped pair
21:00-22:00, 23:00-00:00 yields `(none, none)`. -/
theorem find_consecutive_slots_spec_and_examples :
    (∀ (cells : List Cell) (start_time : Nat) (duration_hours : ℚ),
      find_consecutive_slots cells start_time duration_hours =
        findConsecutiveSlotsSpec cells start_time duration_hours)
    ∧ find_consecutive_slots
        [⟨"Padel indoor 1", 1260, 1320, 0⟩, ⟨"Padel indoor 1", 1320, 1380, 1⟩]
        1260 2 = some (⟨"Padel indoor 1", 1260, 1320, 0⟩, 1380)
    ∧ find_consecutive_slots
        [⟨"Padel indoor 1", 1260, 1320, 0⟩, ⟨"Padel indoor 1", 1380, 0, 1⟩]
        1260 2 = none := by
  refine ⟨fun cells start_time duration_hours => ?_, ?_, ?_⟩
  · rw [find_consecutive_slots, findConsecutiveSlotsSpec, searchCourts_eq_spec]
  · rw [find_consecutive_slots, show intTrunc (2 * 60) = 120 by norm_num [intTrunc]]
    decide
  · rw [find_consecutive_slots, show intTrunc (2 * 60) = 120 by norm_num [intTrunc]]
    decide

theorem check_availability_eq_some_iff (cells : List Cell) (start_time : Nat)
    (duration_hours : ℚ) (c : Cell) :
    check_availability cells start_time duration_hours = some c ↔
      ∃ l1 l2, cells = l1 ++ c :: l2 ∧ availMatches start_time duration_hours c ∧
        ∀ x ∈ l1, ¬ availMatches start_time duration_hours x := by
  induction cells with
  | nil => simp [check_availability]
  | cons d ds ih =>
    rw [check_availability]
    by_cases h : availMatches start_time duration_hours d
    · rw [if_pos h]
      constructor
      · intro hsome
        injection hsome with hdc
        subst hdc
        exact ⟨[], ds, rfl, h, by simp⟩
      · rintro ⟨l1, l2, heq, hc, hnone⟩
        cases l1 with
        | nil =>
          simp only [List.nil_append, List.cons.injEq] at heq
          rw [heq.1]
        | cons a as =>
          simp only [List.cons_append, List.cons.injEq] at heq
          exact absurd (heq.1 ▸ h) (hnone a (by simp))
    · rw [if_neg h, ih]
      constructor
      · rintro ⟨l1, l2, heq, hc, hnone⟩
        refine ⟨d :: l1, l2, by simp [heq], hc, ?_⟩
        intro x hx
        rcases List.mem_cons.mp hx with rfl | hx
        · exact h
        · exact hnone x hx
      · rintro ⟨l1, l2, heq, hc, hnone⟩
        cases l1 with
        | nil =>
          simp only [List.nil_append, List.cons.injEq] at heq
          rw [heq.1] at h
          exact absurd hc h
        | cons a as =>
          simp only [List.cons_append, List.cons.injEq] at heq
          refine ⟨as, l2, heq.2, hc, ?_⟩
          intro x hx
          exact hnone x (by simp [hx])

theorem check_availability_eq_none_iff (cells : List Cell) (start_time : Nat)
    (duration_hours : ℚ) :
    check_availability cells start_time duration_hours = none ↔
      ∀ x ∈ cells, ¬ availMatches start_time duration_hours x := by
  induction cells with
  | nil => simp [check_availability]
  | cons d ds ih =>
    rw [check_availability]
    by_cases h : availMatches start_time duration_hours d
    · rw [if_pos h]
      simp [h]
    · rw [if_neg h, ih]
      simp [h]

/-- C2: `check_availability` scans the free cells in page order and returns
the first cell whose parsed start equals the requested start and whose
computed duration differs from `duration_hours` by strictly less than
0.01; the cell 21:30-23:00 matches requested duration 1.5 but not 1.49;
with no satisfying cell it returns `none`. -/
theorem check_availability_first_match :
    (∀ (cells : List Cell) (start_time : Nat) (duration_hours : ℚ) (c : Cell),
      check_availability cells start_time duration_hours = some c ↔
        ∃ l1 l2, cells = l1 ++ c :: l2 ∧ availMatches start_time duration_hours c ∧
          ∀ x ∈ l1, ¬ availMatches start_time duration_hours x)
    ∧ (∀ (cells : List Cell) (start_time : Nat) (duration_hours : ℚ),
      check_availability cells start_time duration_hours = none ↔
        ∀ x ∈ cells, ¬ availMatches start_time duration_hours x)
    ∧ check_availability [⟨"C", 1290, 1380, 0⟩] 1290 (3/2) = some ⟨"C", 1290, 1380, 0⟩
    ∧ check_availability [⟨"C", 1290, 1380, 0⟩] 1290 (149/100) = none := by
  refine ⟨check_availability_eq_some_iff, check_availability_eq_none_iff, ?_, ?_⟩
  · have h : availMatches 1290 (3/2) ⟨"C", 1290, 1380, 0⟩ :=
      ⟨rfl, by norm_num [durHoursSigned]⟩
    rw [check_availability, if_pos h]
  · have h : ¬ availMatches 1290 (149/100) ⟨"C", 1290, 1380, 0⟩ := by
      rintro ⟨-, h2⟩
      norm_num [durHoursSigned] at h2
      rw [abs_of_pos (by norm_num)] at h2
      norm_num at h2
    rw [check_availability, if_neg h, check_availability]

theorem pickSeat_mem {opts used cands : List String} {p : String}
    (h : pickSeat opts used cands = some p) : p ∈ cands :=
  List.mem_of_find?_eq_some h

theorem pickSeat_not_used {opts used cands : List String} {p : String}
    (h : pickSeat opts used cands = some p) : ¬ p ∈ used := by
  have hp := List.find?_some h
  simp only [Bool.and_eq_true, Bool.not_eq_true'] at hp
  simpa using hp.1

/-- C9: `select_players` returns at most 3 distinct names drawn from the
candidate list; a name occurring several times is selected at most once
(the `used_candidates` set), and an unfillable seat yields the partial
selection rather than an error; concretely, with a duplicated candidate
and an empty options list for seat 4 it returns the two distinct picks. -/
theorem select_players_sound :
    (∀ opts2 opts3 opts4 player_candidates : List String,
      (select_players opts2 opts3 opts4 player_candidates).length ≤ 3
      ∧ (select_players opts2 opts3 opts4 player_candidates).Nodup
      ∧ ∀ p ∈ select_players opts2 opts3 opts4 player_candidates,
          p ∈ player_candidates)
    ∧ select_players ["A", "B"] ["A", "B"] [] ["A", "A", "B"] = ["A", "B"] := by
  constructor
  · intro opts2 opts3 opts4 cands
    cases h2 : pickSeat opts2 [] cands with
    | none => simp [select_players, h2]
    | some p2 =>
      have m2 : p2 ∈ cands := pickSeat_mem h2
      cases h3 : pickSeat opts3 [p2] cands with
      | none =>
        simp only [select_players, h2, h3]
        refine ⟨by simp, by simp, ?_⟩
        intro p hp
        simp only [List.mem_singleton] at hp
        subst hp
        exact m2
      | some p3 =>
        have m3 : p3 ∈ cands := pickSeat_mem h3
        have h32 : p3 ≠ p2 := fun h => pickSeat_not_used h3 (by simp [h])
        cases h4 : pickSeat opts4 [p2, p3] cands with
        | none =>
          simp only [select_players, h2, h3, h4]
          refine ⟨by simp, by simp [List.nodup_cons, Ne.symm h32], ?_⟩
          intro p hp
          simp only [List.mem_cons, List.mem_singleton, List.not_mem_nil,
            or_false] at hp
          rcases hp with rfl | rfl
          · exact m2
          · exact m3
        | some p4 =>
          have m4 : p4 ∈ cands := pickSeat_mem h4
          have h42 : p4 ≠ p2 := fun h => pickSeat_not_used h4 (by simp [h])
          have h43 : p4 ≠ p3 := fun h => pickSeat_not_used h4 (by simp [h])
          simp only [select_players, h2, h3, h4]
          refine ⟨by simp,
            by simp [List.nodup_cons, Ne.symm h32, Ne.symm h42, Ne.symm h43], ?_⟩
          intro p hp
          simp only [List.mem_cons, List.mem_singleton, List.not_mem_nil,
            or_false] at hp
          rcases hp with rfl | rfl | rfl
          · exact m2
          · exact m3
          · exact m4
  · decide

theorem fallback_none_aux (avail : ℤ → Option (Cell × Nat))
    (h : ∀ d, avail d = none) :
    ∀ (fuel : Nat) (d : ℤ) (navs : Nat),
      find_consecutive_slots_with_fallback avail d fuel navs = (none, navs + fuel)
  | 0, d, navs => by simp [find_consecutive_slots_with_fallback]
  | fuel + 1, d, navs => by
    rw [find_consecutive_slots_with_fallback, h d,
      fallback_none_aux avail h fuel (prevBusinessDay d) (navs + 1)]
    rw [Nat.add_assoc, Nat.add_comm 1 fuel]

/-- C3 (spec-modelled): the fallback search retries on successively earlier
business days, skipping a weekend in one arithmetic step (from a Monday the
previous business day is three calendar days back, the prior Friday), gives
up with `(none, none, none)` after `max_days_back` candidate days — the
navigation count then equalling the number of days visited — and a
fallback from a Monday whose Friday has a slot navigates exactly twice. -/
theorem fallback_business_days :
    (∀ (avail : ℤ → Option (Cell × Nat)) (date : ℤ) (max_days_back : Nat),
      (∀ d, avail d = none) →
      find_consecutive_slots_with_fallback avail date max_days_back 0
        = (none, max_days_back))
    ∧ (∀ d : ℤ, d % 7 = 0 → prevBusinessDay d = d - 3)
    ∧ (∀ c : Cell,
        find_consecutive_slots_with_fallback
          (fun d => if d = -3 then some (c, 1380) else none) 0 7 0
          = (some (c, 1380, -3), 2)) := by
  refine ⟨fun avail date n h => ?_, fun d h => ?_, fun c => ?_⟩
  · rw [fallback_none_aux avail h n date 0, Nat.zero_add]
  · rw [prevBusinessDay, if_pos (by omega)]
  · rfl

theorem fallback_business_days_witness :
    find_consecutive_slots_with_fallback (fun _ => none) 5 4 0 = (none, 4)
    ∧ prevBusinessDay 7 = 4 :=
  ⟨fallback_business_days.1 (fun _ => none) 5 4 (fun _ => rfl),
   (fallback_business_days.2.1 7 (by decide)).trans (by decide)⟩

theorem navMonthGo_bound (headers : Nat → Option (Int × Nat)) (year : Int)
    (month : Nat) :
    ∀ (fuel count : Nat),
      (navMonthGo headers year month count fuel).1 ≤ count + fuel
      ∧ ((navMonthGo headers year month count fuel).2 = NavEnd.timeout ↔
          (navMonthGo headers year month count fuel).1 = count + fuel)
  | 0, count => by simp [navMonthGo]
  | fuel + 1, count => by
    cases hh : headers count with
    | none =>
      simp only [navMonthGo, hh]
      refine ⟨by omega, ?_, ?_⟩
      · intro h
        simp at h
      · intro h
        omega
    | some p =>
      obtain ⟨cy, cm⟩ := p
      by_cases he : cy = year ∧ cm = month
      · simp only [navMonthGo, hh, if_pos he]
        refine ⟨by omega, ?_, ?_⟩
        · intro h
          simp at h
        · intro h
          omega
      · have ih := navMonthGo_bound headers year month fuel (count + 1)
        simp only [navMonthGo, hh, if_neg he]
        refine ⟨by omega, ?_⟩
        rw [show count + (fuel + 1) = count + 1 + fuel by omega]
        exact ih.2

/-- C8: the desktop month-stepping loop performs at most 24 next/previous
clicks for any target and any observed header sequence (hence always
terminates), and hitting that bound is exactly the case reported as the
timeout outcome — an error return, not a raised exception. -/
theorem navigate_months_bounded :
    ∀ (headers : Nat → Option (Int × Nat)) (year : Int) (month : Nat),
      (navigate_to_date_months headers year month).1 ≤ 24
      ∧ ((navigate_to_date_months headers year month).2 = NavEnd.timeout ↔
          (navigate_to_date_months headers year month).1 = 24) := by
  intro headers year month
  have h := navMonthGo_bound headers year month maxMonthNavigation 0
  rw [navigate_to_date_months]
  exact ⟨h.1, h.2⟩

theorem mem_insertBlocked (b : String) (blocked : List String) :
    ∀ x ∈ blocked, x ∈ insertBlocked b blocked := by
  intro x hx
  unfold insertBlocked
  split
  · exact hx
  · simp [hx]

theorem filter_blocked_idem (pool blocked : List String) :
    ((pool.filter fun p => !(blocked.contains p)).filter
        fun p => !(blocked.contains p))
      = pool.filter fun p => !(blocked.contains p) := by
  rw [List.filter_eq_self]
  intro a ha
  exact (List.mem_filter.mp ha).2

theorem not_mem_filter_blocked {x : String} (pool blocked : List String)
    (hx : x ∈ blocked) : ¬ x ∈ pool.filter fun p => !(blocked.contains p) := by
  intro hmem
  have h2 := (List.mem_filter.mp hmem).2
  simp only [Bool.not_eq_true'] at h2
  exact (by simpa using h2 : ¬ x ∈ blocked) hx

/-- Invariant of the rotation loop: every attempt recorded in the trace
carries a blocked set extending the entry blocked set and a candidate list
equal to the original pool minus that blocked set, and blocked sets grow
along the trace. -/
theorem rotGo_trace_inv (env : Nat → RotEnv) (pool : List String)
    (booker_first_name : String) (booking_enabled : Bool) :
    ∀ (fuel : Nat) (cands blocked : List String) (attempts : Nat),
      cands = pool.filter (fun p => !(blocked.contains p)) →
      (∀ e ∈ (rotGo env pool booker_first_name booking_enabled
            cands blocked attempts fuel).trace,
          (∀ b ∈ blocked, b ∈ e.2)
          ∧ e.1 = pool.filter fun p => !(e.2.contains p))
      ∧ (rotGo env pool booker_first_name booking_enabled
            cands blocked attempts fuel).trace.Pairwise
          (fun e1 e2 => ∀ b ∈ e1.2, b ∈ e2.2)
  | 0, cands, blocked, attempts => by
    intro hinv
    simp [rotGo]
  | fuel + 1, cands, blocked, attempts => by
    intro hinv
    rw [rotGo]
    by_cases h1 : cands.length < 3
    · rw [if_pos h1]
      simp
    · rw [if_neg h1]
      have hc1 : (cands.filter fun p => !(blocked.contains p))
          = pool.filter fun p => !(blocked.contains p) := by
        rw [hinv]
        exact filter_blocked_idem pool blocked
      by_cases h2 : (cands.filter fun p => !(blocked.contains p)).length < 3
      · rw [if_pos h2]
        constructor
        · intro e he
          simp only [List.mem_singleton] at he
          subst he
          exact ⟨fun b hb => hb, hc1⟩
        · simp
      · rw [if_neg h2]
        by_cases h3 : (select_players (env attempts).opts2 (env attempts).opts3
            (env attempts).opts4
            (cands.filter fun p => !(blocked.contains p))).length < 3
        · rw [if_pos h3]
          constructor
          · intro e he
            simp only [List.mem_singleton] at he
            subst he
            exact ⟨fun b hb => hb, hc1⟩
          · simp
        · rw [if_neg h3]
          cases hp : (env attempts).popup with
          | none =>
            by_cases hbe : booking_enabled
            · rw [if_pos hbe]
              by_cases hok : (env attempts).confirmOk
              · rw [if_pos hok]
                constructor
                · intro e he
                  simp only [List.mem_singleton] at he
                  subst he
                  exact ⟨fun b hb => hb, hc1⟩
                · simp
              · rw [if_neg hok]
                constructor
                · intro e he
                  simp only [List.mem_singleton] at he
                  subst he
                  exact ⟨fun b hb => hb, hc1⟩
                · simp
            · rw [if_neg hbe]
              constructor
              · intro e he
                simp only [List.mem_singleton] at he
                subst he
                exact ⟨fun b hb => hb, hc1⟩
              · simp
          | some perr =>
            cases perr with
            | none =>
              dsimp only
              constructor
              · intro e he
                simp only [List.mem_singleton] at he
                subst he
                exact ⟨fun b hb => hb, hc1⟩
              · simp
            | some b =>
              dsimp only
              by_cases hb : b = booker_first_name
              · rw [if_pos hb]
                constructor
                · intro e he
                  simp only [List.mem_singleton] at he
                  subst he
                  exact ⟨fun x hx => hx, hc1⟩
                · simp
              · rw [if_neg hb]
                by_cases h4 : (pool.filter
                    fun p => !((insertBlocked b blocked).contains p)).length < 3
                · rw [if_pos h4]
                  constructor
                  · intro e he
                    simp only [List.mem_singleton] at he
                    subst he
                    exact ⟨fun x hx => hx, hc1⟩
                  · simp
                · rw [if_neg h4]
                  have ih := rotGo_trace_inv env pool booker_first_name
                    booking_enabled fuel
                    (pool.filter fun p => !((insertBlocked b blocked).contains p))
                    (insertBlocked b blocked) (attempts + 1) rfl
                  constructor
                  · intro e he
                    simp only [List.mem_cons] at he
                    rcases he with rfl | he
                    · exact ⟨fun x hx => hx, hc1⟩
                    · refine ⟨fun x hx => ?_, (ih.1 e he).2⟩
                      exact (ih.1 e he).1 x (mem_insertBlocked b blocked x hx)
                  · rw [List.pairwise_cons]
                    refine ⟨fun e he x hx => ?_, ih.2⟩
                    exact (ih.1 e he).1 x (mem_insertBlocked b blocked x hx)

/-- C4: throughout every rotation run the blocked set only grows between
attempts, the candidate list of each attempt is the original pool minus
that attempt's blocked set, and a once-blocked name never reappears among
the candidates of any later attempt. -/
theorem rotation_blocked_set_monotone :
    ∀ (env : Nat → RotEnv) (player_candidates : List String)
      (booker_first_name : String) (booking_enabled : Bool) (max_attempts : Nat),
      (∀ e ∈ (try_booking_with_player_rotation env player_candidates
            booker_first_name booking_enabled max_attempts).trace,
          e.1 = player_candidates.filter fun p => !(e.2.contains p))
      ∧ (try_booking_with_player_rotation env player_candidates
            booker_first_name booking_enabled max_attempts).trace.Pairwise
          (fun e1 e2 => (∀ b ∈ e1.2, b ∈ e2.2) ∧ ∀ b ∈ e1.2, ¬ b ∈ e2.1) := by
  intro env pool booker be maxA
  have hinit : pool = pool.filter fun p => !(([] : List String).contains p) := by
    simp
  have h := rotGo_trace_inv env pool booker be maxA pool [] 0 hinit
  rw [try_booking_with_player_rotation]
  refine ⟨fun e he => (h.1 e he).2, ?_⟩
  refine h.2.imp_of_mem ?_
  intro e1 e2 h1 h2 hsub
  refine ⟨hsub, fun b hb => ?_⟩
  rw [(h.1 e2 h2).2]
  exact not_mem_filter_blocked pool e2.2 (hsub b hb)

/-- C5: when the parsed rejection message names the organizer, the rotation
returns Python `None` at once — the blocked set is unchanged, the attempt
that observed the rejection is the last one (its entry is the whole
remaining trace), and no confirmation click is performed. -/
theorem rotation_organizer_abort (env : Nat → RotEnv) (pool : List String)
    (booker_first_name : String) (booking_enabled : Bool)
    (cands blocked : List String) (attempts fuel : Nat)
    (h1 : ¬ cands.length < 3)
    (h2 : ¬ (cands.filter fun p => !(blocked.contains p)).length < 3)
    (h3 : ¬ (select_players (env attempts).opts2 (env attempts).opts3
        (env attempts).opts4
        (cands.filter fun p => !(blocked.contains p))).length < 3)
    (h4 : (env attempts).popup = some (some booker_first_name)) :
    rotGo env pool booker_first_name booking_enabled cands blocked attempts
        (fuel + 1)
      = ⟨.noneResult, blocked, attempts + 1, false,
         [(cands.filter fun p => !(blocked.contains p), blocked)]⟩ := by
  rw [rotGo, if_neg h1, if_neg h2, if_neg h3, h4]
  dsimp only
  rw [if_pos rfl]

/-- Environment for the closed organizer-rejection scenario. -/
def rotEnvOrg : Nat → RotEnv :=
  fun _ => ⟨["A", "B", "C"], ["A", "B", "C"], ["A", "B", "C"],
    some (some "Org"), true⟩

theorem rotation_organizer_abort_witness :
    rotGo rotEnvOrg ["A", "B", "C"] "Org" true ["A", "B", "C"] [] 0 1
      = ⟨.noneResult, [], 1, false, [(["A", "B", "C"], [])]⟩ :=
  (rotation_organizer_abort rotEnvOrg ["A", "B", "C"] "Org" true
    ["A", "B", "C"] [] 0 0 (by decide) (by decide) (by decide) rfl).trans
    (by decide)

/-- C6: whenever the non-blocked remainder of the candidate list has fewer
than 3 entries the rotation fails with `PlayerSelectionExhaustedError`;
when the attempt bound is reached the failure is the "maximum attempts
reached" one; an exhausted run never returns players; and the default
attempt bound is 2. -/
theorem rotation_exhaustion :
    (∀ (env : Nat → RotEnv) (pool : List String) (booker_first_name : String)
        (booking_enabled : Bool) (cands blocked : List String)
        (attempts fuel : Nat),
      (cands.filter fun p => !(blocked.contains p)).length < 3 →
      ∃ r, (rotGo env pool booker_first_name booking_enabled
          cands blocked attempts fuel).result = RotResult.exhausted r)
    ∧ (∀ (env : Nat → RotEnv) (pool : List String) (booker_first_name : String)
        (booking_enabled : Bool) (cands blocked : List String) (attempts : Nat),
        rotGo env pool booker_first_name booking_enabled cands blocked attempts 0
          = ⟨.exhausted .maxAttemptsReached, blocked, attempts, false, []⟩)
    ∧ (∀ (r : ExhaustReason) (sel : List String),
        RotResult.exhausted r ≠ RotResult.success sel)
    ∧ defaultMaxBookingAttempts = 2 := by
  refine ⟨?_, ?_, ?_, rfl⟩
  · intro env pool booker be cands blocked attempts fuel hlt
    cases fuel with
    | zero => exact ⟨.maxAttemptsReached, rfl⟩
    | succ fuel =>
      rw [rotGo]
      by_cases h1 : cands.length < 3
      · rw [if_pos h1]
        exact ⟨.ranOutOfCandidates, rfl⟩
      · rw [if_neg h1, if_pos hlt]
        exact ⟨.notEnoughAfterBlocked, rfl⟩
  · intro env pool booker be cands blocked attempts
    rfl
  · intro r sel
    simp

theorem rotation_exhaustion_witness :
    ∃ r, (rotGo (fun _ => ⟨[], [], [], none, true⟩) [] "X" false [] [] 0 1).result
      = RotResult.exhausted r :=
  rotation_exhaustion.1 (fun _ => ⟨[], [], [], none, true⟩) [] "X" false
    [] [] 0 1 (by decide)

/-- C7: a start request while `running=true` is rejected with HTTP 400 and
no background thread — hence no browser session — is started; and whichever
way a background job ends (validation failure, construction failure, any
session outcome), the final status has `running=false` and a populated
result. -/
theorem status_tracker_lifecycle :
    (∀ (st : BookingStatus) (configOk credsOk : Bool),
      st.running = true →
      book_court st configOk credsOk = (ApiResp.httpError 400, false))
    ∧ (∀ (cfg : JobCfg) (booker_first_name : String)
        (player_candidates : List String) (env : JobEnv) (now : Nat),
      (run_booking_background cfg booker_first_name player_candidates
          env now).final.running = false
      ∧ ((run_booking_background cfg booker_first_name player_candidates
          env now).final.result).isSome = true) := by
  constructor
  · intro st configOk credsOk h
    rw [book_court, if_pos (by rw [h])]
  · intro cfg name cands env now
    rw [run_booking_background]
    by_cases h : name = "" ∨ cands = []
    · rw [if_pos h]
      exact ⟨rfl, rfl⟩
    · rw [if_neg h]
      cases env.constructRaise with
      | some m => exact ⟨rfl, rfl⟩
      | none => exact ⟨rfl, rfl⟩

theorem status_tracker_lifecycle_witness :
    book_court ⟨true, none, none⟩ true true = (ApiResp.httpError 400, false) :=
  status_tracker_lifecycle.1 ⟨true, none, none⟩ true true rfl

/-- C10: with an empty organizer name or an empty candidate list the
background job records the validation error result and returns before any
browser session is constructed, having transitioned `running` from true
back to false. -/
theorem job_input_validation :
    ∀ (cfg : JobCfg) (booker_first_name : String)
      (player_candidates : List String) (env : JobEnv) (now : Nat),
      booker_first_name = "" ∨ player_candidates = [] →
      (run_booking_background cfg booker_first_name player_candidates
          env now).sessionOpened = false
      ∧ (run_booking_background cfg booker_first_name player_candidates
          env now).afterStart.running = true
      ∧ (run_booking_background cfg booker_first_name player_candidates
          env now).final.running = false
      ∧ (run_booking_background cfg booker_first_name player_candidates
          env now).final.result
        = some (.error "booker_first_name and player_candidates must be provided") := by
  intro cfg name cands env now h
  rw [run_booking_background, if_pos h]
  exact ⟨rfl, rfl, rfl, rfl⟩

theorem job_input_validation_witness :
    (run_booking_background ⟨"u", "2025-01-06", "21:00"⟩ "" ["A"]
        ⟨none, true, none, true, none⟩ 0).sessionOpened = false
    ∧ (run_booking_background ⟨"u", "2025-01-06", "21:00"⟩ "" ["A"]
        ⟨none, true, none, true, none⟩ 0).afterStart.running = true
    ∧ (run_booking_background ⟨"u", "2025-01-06", "21:00"⟩ "" ["A"]
        ⟨none, true, none, true, none⟩ 0).final.running = false
    ∧ (run_booking_background ⟨"u", "2025-01-06", "21:00"⟩ "" ["A"]
        ⟨none, true, none, true, none⟩ 0).final.result
      = some (.error "booker_first_name and player_candidates must be provided") :=
  job_input_validation ⟨"u", "2025-01-06", "21:00"⟩ "" ["A"]
    ⟨none, true, none, true, none⟩ 0 (Or.inl rfl)

end PadelBooker
